import Mathlib

/-!
Shallow embedding of the event-delivery pipeline of the h-tools monitor SDK:
the producer-side EventQueue (core/queue.ts), the batch transport
(worker/transport/batch.ts), the IndexedDB storage layer (worker/storage/idb.ts)
and the worker message handlers (worker/index.ts).  Methods are translated as
pure state-passing functions; promise rejections become Except values or Bool
flags, and the outcomes of external requests (network sends, IndexedDB
requests) are supplied by explicit oracle arguments.
-/

/-- Overflow strategy of the in-memory fallback queue (core/queue.ts). -/
inductive OverflowStrategy where
  | replace
  | drop
  deriving DecidableEq

/-- Observable effect of one EventQueue.push call: the event is posted to the
worker channel, appended to the in-memory queue, or discarded by the drop
overflow strategy. -/
inductive PushEffect (α : Type) where
  | postedToWorker (e : α)
  | appended
  | droppedNew
  deriving DecidableEq

/-- The part of the EventQueue state that push and flush read and write:
whether the worker channel exists, the in-memory queue, and the two queue
options (core/queue.ts fields worker, queue, maxQueueSize, overflowStrategy). -/
structure QueueState (α : Type) where
  worker : Bool
  queue : List α
  maxQueueSize : Nat
  overflowStrategy : OverflowStrategy
  deriving DecidableEq

namespace EventQueue

variable {α : Type}

/-- Buffer-mode branch of core/queue.ts push: when the queue is full, the drop
strategy discards the new event and the replace strategy shifts index 0 before
appending. -/
def bufferPush (strat : OverflowStrategy) (maxSize : Nat) (q : List α) (e : α) :
    List α × PushEffect α :=
  if maxSize ≤ q.length then
    match strat with
    | .drop => (q, .droppedNew)
    | .replace => (q.drop 1 ++ [e], .appended)
  else (q ++ [e], .appended)

/-- core/queue.ts push: with a worker, postMessage and return; without one,
run the buffer-mode branch.  The function is total and synchronous: no branch
suspends or raises. -/
def push (s : QueueState α) (e : α) : QueueState α × PushEffect α :=
  if s.worker then (s, .postedToWorker e)
  else
    let r := bufferPush s.overflowStrategy s.maxQueueSize s.queue e
    ({ s with queue := r.1 }, r.2)

/-- The queue contents after a sequence of buffer-mode pushes starting from an
empty queue. -/
def pushAll (strat : OverflowStrategy) (maxSize : Nat) (evs : List α) : List α :=
  evs.foldl (fun q e => (bufferPush strat maxSize q e).1) []

/-- Result of one fallback-mode direct send (core/queue.ts
flushQueueImmediate): the queue afterwards, the events put in the POST body,
whether a request was made, and whether a send failure was logged. -/
structure ImmediateFlush (α : Type) where
  queueAfter : List α
  sent : List α
  requested : Bool
  loggedError : Bool
  deriving DecidableEq

/-- core/queue.ts flushQueueImmediate: returns at once on an empty queue;
otherwise splice(0, batchSize) removes the first batchSize events from the
queue before the fetch, and a failed response is only logged — the spliced
events are not put back. -/
def flushQueueImmediate (batchSize : Nat) (q : List α) (sendOk : Bool) :
    ImmediateFlush α :=
  if q.isEmpty then ⟨q, [], false, false⟩
  else ⟨q.drop batchSize, q.take batchSize, true, !sendOk⟩

end EventQueue

/-- State tag of the batch transport (worker/transport/batch.ts
TransportState). -/
inductive TransportState where
  | idle
  | sending
  | stopped
  deriving DecidableEq

/-- The mutable fields of BatchTransport read and written by flush,
handleError, start and stop: the state tag, the retry counter, and whether
the interval timer is set. -/
structure BTState where
  tstate : TransportState
  retryCount : Nat
  timerOn : Bool
  deriving DecidableEq

/-- Observable outcome of one flush call: the transport state afterwards, the
onSuccess invocations made (each with its argument), whether a retry timeout
was scheduled, and its delay in milliseconds. -/
structure FlushOutcome (α : Type) where
  st : BTState
  onSuccessCalls : List (List α)
  retryScheduled : Bool
  retryDelay : Option Nat
  deriving DecidableEq

namespace BatchTransport

/-- worker/transport/batch.ts stop: clear the interval timer and set the
state to STOPPED. -/
def stop (st : BTState) : BTState :=
  { st with tstate := .stopped, timerOn := false }

/-- worker/transport/batch.ts start: set the interval timer unless it is
already set; the state tag is untouched. -/
def start (st : BTState) : BTState :=
  if st.timerOn then st else { st with timerOn := true }

/-- worker/transport/batch.ts createBatches: partition the fetched events
into chunks of batchSize.  For batchSize at least 1 this is exactly the JS
loop (each chunk is events.slice(i, i + batchSize)); the JS loop does not
terminate for batchSize zero, so every statement below about chunk structure
assumes a positive batch size.  The recursion runs on a fuel argument that
createBatches sets to the event count, which every call preserves as an upper
bound on the remaining list, so the zero-fuel case is unreachable. -/
def createBatchesAux {α : Type} (batchSize : Nat) : Nat → List α → List (List α)
  | _, [] => []
  | 0, _ :: _ => []
  | fuel + 1, e :: es =>
      (e :: es.take (batchSize - 1))
        :: createBatchesAux batchSize fuel (es.drop (batchSize - 1))

/-- worker/transport/batch.ts createBatches, with the fuel fixed to the event
count. -/
def createBatches {α : Type} (batchSize : Nat) (events : List α) :
    List (List α) :=
  createBatchesAux batchSize events.length events

/-- worker/transport/batch.ts handleError: increment the retry counter; while
it stays below maxRetries, schedule a retry after
min(1000 * 2 ^ retryCount, 30000) milliseconds — the state stays SENDING
until the timeout fires; otherwise give up, reset the counter to zero and
return to IDLE.  Returns (state, retryScheduled, delay). -/
def handleError (maxRetries : Nat) (st : BTState) : BTState × Bool × Option Nat :=
  let rc := st.retryCount + 1
  if rc < maxRetries then
    ({ st with retryCount := rc }, true, some (min (1000 * 2 ^ rc) 30000))
  else
    ({ st with retryCount := 0, tstate := .idle }, false, none)

/-- worker/transport/batch.ts flush, for a configured transport: a no-op when
already SENDING; otherwise the state becomes SENDING, the events are fetched
(fetched is what onBeforeSend returned), an empty fetch returns to IDLE, and
otherwise the chunks are sent sequentially — chunkOk i is the network outcome
of chunk i and the first failure fails the whole attempt.  onSuccess is
called once, with all fetched events, only when every chunk succeeded, and
then the retry counter is reset and the state returns to IDLE; on failure
handleError runs. -/
def flushAttempt {α : Type} (maxRetries batchSize : Nat) (st : BTState)
    (fetched : List α) (chunkOk : Nat → Bool) : FlushOutcome α :=
  if st.tstate = .sending then ⟨st, [], false, none⟩
  else
    let st1 : BTState := { st with tstate := .sending }
    if fetched.isEmpty then ⟨{ st1 with tstate := .idle }, [], false, none⟩
    else
      let chunks := createBatches batchSize fetched
      if (List.range chunks.length).all chunkOk then
        ⟨{ st1 with tstate := .idle, retryCount := 0 }, [fetched], false, none⟩
      else
        let r := handleError maxRetries st1
        ⟨r.1, [], r.2.1, r.2.2⟩

/-- The retry chain: when an attempt schedules a retry, the timeout callback
sets the state to IDLE and calls flush again with the same Store contents;
the list gives the per-attempt network outcomes. -/
def runFlush {α : Type} (maxRetries batchSize : Nat) :
    BTState → List α → List (Nat → Bool) → BTState × List (List α)
  | st, _, [] => (st, [])
  | st, fetched, ok :: rest =>
      let r := flushAttempt maxRetries batchSize st fetched ok
      if r.retryScheduled then
        let next := runFlush maxRetries batchSize { r.st with tstate := .idle }
          fetched rest
        (next.1, r.onSuccessCalls ++ next.2)
      else (r.st, r.onSuccessCalls)

/-- A periodic timer tick: the interval callback runs flush; stop clears the
interval, so after stop a tick does nothing at all. -/
def timerFire {α : Type} (maxRetries batchSize : Nat) (st : BTState)
    (fetched : List α) (chunkOk : Nat → Bool) : FlushOutcome α :=
  if st.timerOn then flushAttempt maxRetries batchSize st fetched chunkOk
  else ⟨st, [], false, none⟩

end BatchTransport

/-- A persisted store record: store-assigned primary key, expiry timestamp,
and the stored value.  cleanup and deleteEvents read only id and expireAt, so
they are stated over records with an arbitrary value component. -/
structure Rec (α : Type) where
  id : Nat
  expireAt : Nat
  value : α
  deriving DecidableEq

namespace IndexedDBStorage

/-- One IDBObjectStore.delete(key): removes the record with that primary
key. -/
def deleteById {α : Type} (store : List (Rec α)) (k : Nat) : List (Rec α) :=
  store.filter (fun r => decide (r.id ≠ k))

/-- The expireAt-index cursor over the range upperBound(now): it visits
exactly the records whose expireAt is at most now. -/
def expiredScan {α : Type} (now : Nat) (store : List (Rec α)) : List (Rec α) :=
  store.filter (fun r => decide (r.expireAt ≤ now))

/-- worker/storage/idb.ts cleanup: walk the expireAt-index cursor bounded by
now, delete each visited record by primary key, count the deletions, and
resolve with the count. -/
def cleanup {α : Type} (now : Nat) (store : List (Rec α)) : List (Rec α) × Nat :=
  (expiredScan now store).foldl
    (fun acc r => (deleteById acc.1 r.id, acc.2 + 1)) (store, 0)

/-- worker/storage/idb.ts deleteEvents: resolves immediately on an empty id
list; otherwise a delete request is issued for every id up front (the forEach
runs before any callback fires), so every id is attempted regardless of other
failures; the promise resolves only when all requests succeeded and rejects
at the first failure.  err is the oracle for the per-request IndexedDB
outcome; deleting an absent id is a successful no-op request. -/
def deleteEvents {α : Type} (err : Nat → Bool) (ids : List Nat)
    (store : List (Rec α)) : List (Rec α) × Bool :=
  if ids.isEmpty then (store, true)
  else
    (ids.foldl (fun s k => if err k then s else deleteById s k) store,
     ids.all (fun k => !err k))

end IndexedDBStorage

/-- worker/index.ts onSuccess callback: collect the ids of the delivered
events and delete them from the Store (in this model every stored record has
an id, so the undefined-id filter keeps everything). -/
def onSuccessDelete {α : Type} (events : List (Rec α)) (store : List (Rec α)) :
    List (Rec α) :=
  (IndexedDBStorage.deleteEvents (fun _ => false) (events.map (·.id)) store).1

/-- Apply the Store deletions performed by a list of onSuccess invocations. -/
def applyDeliveries {α : Type} (calls : List (List (Rec α)))
    (store : List (Rec α)) : List (Rec α) :=
  calls.foldl (fun s evs => onSuccessDelete evs s) store

/-- Viewport of a DOM snapshot (shared/types.ts SnapshotEvent). -/
structure Viewport where
  width : Nat
  height : Nat
  deriving DecidableEq

/-- Snapshot carried by a SNAPSHOT event.  The lite flag marks the reduced
snapshot the processor substitutes for oversized ones; a lite snapshot
carries no DOM, modelled as an empty dom string. -/
structure DomSnapshot where
  url : String
  title : String
  viewport : Viewport
  dom : String
  lite : Bool
  deriving DecidableEq

/-- The data field of a monitor event, to the depth the worker inspects it: a
snapshot payload with the fields the snapshot processor reads and writes
(snapshot, errorId, snapshotSize, isLite), or any other collector payload,
which the pipeline treats as a black box. -/
inductive EventData where
  | snap (snapshot : Option DomSnapshot) (errorId : Option String)
      (snapshotSize : Option Nat) (isLite : Bool)
  | plain (payload : String)
  deriving DecidableEq

/-- A monitor event: type tag, capture timestamp, and data payload
(shared/types.ts MonitorEvent). -/
structure MEvent where
  etype : String
  timestamp : Nat
  data : EventData
  deriving DecidableEq

/-- JSON.stringify of a viewport in insertion order, for strings that need no
escaping; used only for the snapshot byte-size check. -/
def stringifyViewport (v : Viewport) : String :=
  "\x7b\"width\":" ++ toString v.width ++ ",\"height\":"
    ++ toString v.height ++ "\x7d"

/-- JSON.stringify of a snapshot in insertion order (url, title, viewport,
dom), for strings that need no escaping. -/
def stringifySnapshot (s : DomSnapshot) : String :=
  "\x7b\"url\":\"" ++ s.url ++ "\",\"title\":\"" ++ s.title
    ++ "\",\"viewport\":" ++ stringifyViewport s.viewport
    ++ ",\"dom\":\"" ++ s.dom ++ "\"\x7d"

/-- worker/storage/schema.ts STORAGE_LIMITS.MAX_SNAPSHOT_SIZE (500 KB). -/
def MAX_SNAPSHOT_SIZE : Nat := 500 * 1024

/-- worker/storage/schema.ts TTL_CONFIG.DEFAULT_EVENT_TTL (7 days). -/
def DEFAULT_EVENT_TTL : Nat := 7 * 24 * 60 * 60 * 1000

namespace SnapshotProcessor

/-- worker/processor/snapshot.ts process: events without a snapshot payload
pass through unchanged; otherwise the DOM is compressed when nonempty
(compressDOM, the regex pipeline, is a parameter here — the theorems below
hold for every compressor), the serialized size is computed, oversized
snapshots are replaced by a lite version without DOM and with isLite set, and
otherwise the snapshot together with a new snapshotSize field is written back
into data. -/
def process (compressDOM : String → String) (e : MEvent) : MEvent :=
  match e.data with
  | .plain _ => e
  | .snap none _ _ _ => e
  | .snap (some s0) errorId _ lite0 =>
      let s := if s0.dom ≠ "" then { s0 with dom := compressDOM s0.dom } else s0
      let size := (stringifySnapshot s).length
      if MAX_SNAPSHOT_SIZE < size then
        let liteSnap : DomSnapshot := ⟨s.url, s.title, s.viewport, "", true⟩
        let liteData : EventData := EventData.snap (some liteSnap) errorId (some 0) true
        { e with data := liteData }
      else
        let fullData : EventData := EventData.snap (some s) errorId (some size) lite0
        { e with data := fullData }

end SnapshotProcessor

/-- A stored event record as worker/storage/idb.ts addEvent persists it: the
event fields spread unchanged, plus expireAt, plus the auto-increment id. -/
structure StoredEvent where
  id : Nat
  etype : String
  timestamp : Nat
  data : EventData
  expireAt : Nat
  deriving DecidableEq

/-- worker/storage/idb.ts addEvent: the record is the event object spread
unchanged plus expireAt = now + DEFAULT_EVENT_TTL, keyed by the next
auto-increment id. -/
def addEvent (now nextId : Nat) (e : MEvent) : StoredEvent :=
  ⟨nextId, e.etype, e.timestamp, e.data, now + DEFAULT_EVENT_TTL⟩

/-- A worker-to-main response message (shared/types.ts WorkerResponse). -/
structure WorkerResponse where
  rtype : String
  success : Option Bool
  error : Option String
  rid : Option Nat
  deriving DecidableEq

namespace MonitorWorker

/-- worker/index.ts handleEvent processing step: the snapshot processor runs
on SNAPSHOT events and the replay processor on REPLAY events (the replay
processor is a parameter: nothing below depends on what it does); all other
events pass through untouched. -/
def processEvent (compressDOM : String → String)
    (replayProcess : MEvent → MEvent) (e : MEvent) : MEvent :=
  let e1 :=
    if e.etype = "SNAPSHOT" then SnapshotProcessor.process compressDOM e else e
  if e1.etype = "REPLAY" then replayProcess e1 else e1

/-- worker/index.ts handleEvent followed by the storage add: the record the
pipeline persists for an incoming event. -/
def handleEventStored (compressDOM : String → String)
    (replayProcess : MEvent → MEvent) (now nextId : Nat) (e : MEvent) :
    StoredEvent :=
  addEvent now nextId (processEvent compressDOM replayProcess e)

/-- worker/index.ts init: there is no try/catch around storage.init, so a
storage failure escapes the async onmessage handler as an unhandled rejection
(modelled as Except.error) instead of being posted as an error response; on
success the init response is posted.  storageInit is the oracle for the
IndexedDB open outcome. -/
def init (storageInit : Except String Unit) :
    Except String (List WorkerResponse) :=
  match storageInit with
  | .error msg => .error msg
  | .ok _ => .ok [⟨"init", some true, none, none⟩]

/-- worker/index.ts handleEvent: an unconfigured worker posts an error
response and returns; otherwise the whole body — processors, storage.addEvent
and the critical-event flush — runs inside try/catch, so a thrown error is
posted as an error response and never escapes the handler.  tryBlock is the
oracle for the body: the stored id on success, the thrown message on
failure. -/
def handleEvent (configured : Bool) (tryBlock : Except String Nat) :
    Except String (List WorkerResponse) :=
  if !configured then .ok [⟨"error", none, some "Worker not initialized", none⟩]
  else
    match tryBlock with
    | .ok newId => .ok [⟨"event", some true, none, some newId⟩]
    | .error msg => .ok [⟨"error", none, some msg, none⟩]

end MonitorWorker

namespace EventQueue

/-- Folding buffer-mode pushes with the replace strategy over any starting
queue of length at most N keeps exactly the last N elements of the combined
sequence (N at least 1). -/
lemma foldl_bufferPush_replace {α : Type} (N : Nat) (hN : 1 ≤ N) :
    ∀ (evs q : List α), q.length ≤ N →
      evs.foldl (fun q e => (bufferPush .replace N q e).1) q
        = (q ++ evs).drop ((q ++ evs).length - N)
  | [], q, hq => by
      simp [Nat.sub_eq_zero_of_le hq]
  | e :: es, q, hq => by
      rw [List.foldl_cons]
      by_cases hfull : N ≤ q.length
      · have hqN : q.length = N := le_antisymm hq hfull
        obtain ⟨x, q', rfl⟩ : ∃ x q', q = x :: q' := by
          cases q with
          | nil => simp at hqN; omega
          | cons a l => exact ⟨a, l, rfl⟩
        have hlen : q'.length = N - 1 := by simp at hqN; omega
        have h1 : (bufferPush (α := α) .replace N (x :: q') e).1 = q' ++ [e] := by
          have hc : N ≤ q'.length + 1 := by simpa using hfull
          simp [bufferPush, hc]
        rw [h1, foldl_bufferPush_replace N hN es (q' ++ [e])
          (by simp [hlen]; omega)]
        have hmid : (q' ++ [e]) ++ es = q' ++ e :: es := by simp
        have hL : (q' ++ e :: es).length = N + es.length := by simp [hlen]; omega
        rw [hmid, show ((x :: q') ++ e :: es) = x :: (q' ++ e :: es) from rfl]
        have e1 : (q' ++ e :: es).length - N = es.length := by rw [hL]; omega
        have e2 : (x :: (q' ++ e :: es)).length - N = es.length + 1 := by
          simp [hL]; omega
        rw [e1, e2, List.drop_succ_cons]
      · have h1 : (bufferPush (α := α) .replace N q e).1 = q ++ [e] := by
          have hc : ¬ N ≤ q.length := hfull
          simp [bufferPush, hc]
        rw [h1, foldl_bufferPush_replace N hN es (q ++ [e]) (by simp; omega)]
        rw [show (q ++ [e]) ++ es = q ++ e :: es by simp]

/-- Folding buffer-mode pushes with the drop strategy over a starting queue of
length at most N appends only the first N minus start-length new elements. -/
lemma foldl_bufferPush_drop {α : Type} (N : Nat) :
    ∀ (evs q : List α), q.length ≤ N →
      evs.foldl (fun q e => (bufferPush .drop N q e).1) q
        = q ++ evs.take (N - q.length)
  | [], q, _ => by simp
  | e :: es, q, hq => by
      rw [List.foldl_cons]
      by_cases hfull : N ≤ q.length
      · have hqN : q.length = N := le_antisymm hq hfull
        have h1 : (bufferPush (α := α) .drop N q e).1 = q := by
          simp [bufferPush, hfull]
        rw [h1, foldl_bufferPush_drop N es q hq]
        rw [show N - q.length = 0 by omega]
        simp
      · have h1 : (bufferPush (α := α) .drop N q e).1 = q ++ [e] := by
          have hc : ¬ N ≤ q.length := hfull
          simp [bufferPush, hc]
        rw [h1, foldl_bufferPush_drop N es (q ++ [e]) (by simp; omega)]
        rw [show N - q.length = (N - (q ++ [e]).length) + 1 by simp; omega]
        simp

end EventQueue

/-- C1 (amended): push is a total synchronous function on every queue state:
with a worker channel it posts the event and leaves the state unchanged; in
buffer mode it appends (evicting index 0 first when the queue is full under
the replace strategy), except that a full queue under the drop strategy
discards the new event and leaves the state unchanged.  No branch suspends or
raises. -/
theorem push_contract_amended {α : Type} (s : QueueState α) (e : α) :
    (EventQueue.push s e).1.worker = s.worker
  ∧ (s.worker = true → EventQueue.push s e = (s, .postedToWorker e))
  ∧ (s.worker = false → s.queue.length < s.maxQueueSize →
      EventQueue.push s e = ({ s with queue := s.queue ++ [e] }, .appended))
  ∧ (s.worker = false → s.maxQueueSize ≤ s.queue.length →
      s.overflowStrategy = .replace →
      EventQueue.push s e
        = ({ s with queue := s.queue.drop 1 ++ [e] }, .appended))
  ∧ (s.worker = false → s.maxQueueSize ≤ s.queue.length →
      s.overflowStrategy = .drop →
      EventQueue.push s e = (s, .droppedNew)) := by
  obtain ⟨w, q, N, strat⟩ := s
  refine ⟨?_, ?_, ?_, ?_, ?_⟩
  · cases w <;> simp [EventQueue.push]
  · intro hw
    subst hw
    simp [EventQueue.push]
  · intro hw hlt
    subst hw
    simp only at hlt
    have hc : ¬ N ≤ q.length := by omega
    simp [EventQueue.push, EventQueue.bufferPush, hc]
  · intro hw hge hstrat
    subst hw
    simp only at hge hstrat
    subst hstrat
    simp [EventQueue.push, EventQueue.bufferPush, hge]
  · intro hw hge hstrat
    subst hw
    simp only at hge hstrat
    subst hstrat
    simp [EventQueue.push, EventQueue.bufferPush, hge]

/-- C1 witness: concrete instances of the amended contract, in worker mode and
in buffer mode below capacity. -/
theorem push_contract_amended_witness :
    EventQueue.push ⟨true, [], 5, .replace⟩ (0 : Nat)
      = (⟨true, [], 5, .replace⟩, .postedToWorker 0)
  ∧ EventQueue.push ⟨false, [7], 5, .replace⟩ (1 : Nat)
      = (⟨false, [7, 1], 5, .replace⟩, .appended) := by
  refine ⟨(push_contract_amended ⟨true, [], 5, .replace⟩ 0).2.1 rfl, ?_⟩
  have h := (push_contract_amended ⟨false, [7], 5, .replace⟩ 1).2.2.1 rfl
    (by decide)
  simpa using h

/-- C1 counterexample: with the worker absent, a full queue and the drop
strategy, push neither posts the event to the worker nor appends it to the
buffer — the new event is discarded. -/
theorem push_counterexample_drop_full :
    ¬ ((EventQueue.push ⟨false, [0], 1, .drop⟩ (1 : Nat)).2
          = .postedToWorker 1
       ∨ (1 : Nat) ∈ (EventQueue.push ⟨false, [0], 1, .drop⟩ (1 : Nat)).1.queue)
    := by decide

/-- C2 (amended): for maxSize N with N at least 1, any sequence of buffer-mode
pushes keeps the queue length at most N; the replace strategy keeps exactly
the most recent elements (the sequence with its first length - N elements
dropped), and the drop strategy keeps exactly the first N elements, so once
the queue reaches N further pushes leave it unchanged. -/
theorem pushAll_bounded_amended {α : Type} (N : Nat) (hN : 1 ≤ N)
    (evs : List α) :
    (EventQueue.pushAll .replace N evs).length ≤ N
  ∧ EventQueue.pushAll .replace N evs = evs.drop (evs.length - N)
  ∧ EventQueue.pushAll .drop N evs = evs.take N := by
  have hrep := EventQueue.foldl_bufferPush_replace N hN evs [] (by simp)
  have hdrop := EventQueue.foldl_bufferPush_drop N evs [] (by simp)
  simp only [List.nil_append] at hrep hdrop
  refine ⟨?_, ?_, ?_⟩
  · rw [EventQueue.pushAll, hrep]
    simp [List.length_drop]
    omega
  · rw [EventQueue.pushAll, hrep]
  · rw [EventQueue.pushAll, hdrop]
    simp

/-- C2 witness: the amended bound and both strategy characterizations at
N = 2 over the push sequence 0, 1, 2. -/
theorem pushAll_bounded_witness :
    (EventQueue.pushAll (α := Nat) .replace 2 [0, 1, 2]).length ≤ 2
  ∧ EventQueue.pushAll (α := Nat) .replace 2 [0, 1, 2] = [1, 2]
  ∧ EventQueue.pushAll (α := Nat) .drop 2 [0, 1, 2] = [0, 1] := by
  have h := pushAll_bounded_amended (α := Nat) 2 (by decide) [0, 1, 2]
  simpa using h

/-- C2 counterexample: with maxSize 0 and the replace strategy the code shifts
the empty queue (a no-op) and then appends, so one push already exceeds the
configured bound. -/
theorem pushAll_maxSize_zero_counterexample :
    ¬ ((EventQueue.pushAll (α := Nat) .replace 0 [0]).length ≤ 0) := by decide

/-- C5 (amended): fallback-mode flush sends at most batchSize buffered events
in one direct send, but it removes them from the queue unconditionally before
the send: the queue afterwards is the same whether the send succeeds or fails,
so a failed or throwing send loses the spliced events. -/
theorem flushQueueImmediate_amended {α : Type} (batchSize : Nat) (q : List α)
    (sendOk : Bool) :
    (EventQueue.flushQueueImmediate batchSize q sendOk).queueAfter
        = q.drop batchSize
  ∧ (EventQueue.flushQueueImmediate batchSize q sendOk).sent = q.take batchSize
  ∧ (EventQueue.flushQueueImmediate batchSize q sendOk).sent.length ≤ batchSize
  ∧ (EventQueue.flushQueueImmediate batchSize q true).queueAfter
        = (EventQueue.flushQueueImmediate batchSize q false).queueAfter := by
  cases q with
  | nil => simp [EventQueue.flushQueueImmediate]
  | cons a l =>
      refine ⟨?_, ?_, ?_, ?_⟩ <;>
        simp [EventQueue.flushQueueImmediate, List.length_take]

/-- C5 counterexample: with one buffered event and a failing send, the event
is no longer in the queue after flush — the buffer does not retain events on
send failure. -/
theorem flushQueueImmediate_counterexample :
    ¬ ((0 : Nat) ∈
        (EventQueue.flushQueueImmediate 10 [(0 : Nat)] false).queueAfter) := by
  decide

namespace BatchTransport

/-- A flush while already SENDING is a no-op. -/
lemma flushAttempt_of_sending {α : Type} (mr bs : Nat) (st : BTState)
    (fetched : List α) (ok : Nat → Bool) (h : st.tstate = .sending) :
    flushAttempt mr bs st fetched ok = ⟨st, [], false, none⟩ := by
  simp [flushAttempt, h]

/-- A flush with an empty fetch returns to IDLE without calling onSuccess. -/
lemma flushAttempt_of_empty {α : Type} (mr bs : Nat) (st : BTState)
    (ok : Nat → Bool) (h : st.tstate ≠ .sending) :
    flushAttempt mr bs st ([] : List α) ok
      = ⟨{ st with tstate := .idle }, [], false, none⟩ := by
  simp [flushAttempt, h]

/-- A flush on which every chunk send succeeds calls onSuccess once with all
fetched events, resets the retry counter and returns to IDLE. -/
lemma flushAttempt_success {α : Type} (mr bs : Nat) (st : BTState)
    (fetched : List α) (ok : Nat → Bool) (h : st.tstate ≠ .sending)
    (hne : fetched ≠ [])
    (hall : (List.range (createBatches bs fetched).length).all ok = true) :
    flushAttempt mr bs st fetched ok
      = ⟨⟨.idle, 0, st.timerOn⟩, [fetched], false, none⟩ := by
  obtain ⟨ts, rc, tm⟩ := st
  have hE : fetched.isEmpty = false := by
    cases fetched with
    | nil => exact absurd rfl hne
    | cons a l => rfl
  simp [flushAttempt, h, hE, hall]

/-- A failed flush below the retry limit schedules a retry with the
exponential-backoff delay and leaves the state SENDING until the timeout
fires. -/
lemma flushAttempt_fail_retry {α : Type} (mr bs : Nat) (st : BTState)
    (fetched : List α) (ok : Nat → Bool) (h : st.tstate ≠ .sending)
    (hne : fetched ≠ [])
    (hfail : (List.range (createBatches bs fetched).length).all ok = false)
    (hlt : st.retryCount + 1 < mr) :
    flushAttempt mr bs st fetched ok
      = ⟨⟨.sending, st.retryCount + 1, st.timerOn⟩, [], true,
          some (min (1000 * 2 ^ (st.retryCount + 1)) 30000)⟩ := by
  obtain ⟨ts, rc, tm⟩ := st
  have hE : fetched.isEmpty = false := by
    cases fetched with
    | nil => exact absurd rfl hne
    | cons a l => rfl
  simp only at hlt
  simp [flushAttempt, handleError, h, hE, hfail, hlt]

/-- A failed flush at the retry limit abandons the attempt: retry counter
reset, state back to IDLE, no retry scheduled. -/
lemma flushAttempt_fail_abandon {α : Type} (mr bs : Nat) (st : BTState)
    (fetched : List α) (ok : Nat → Bool) (h : st.tstate ≠ .sending)
    (hne : fetched ≠ [])
    (hfail : (List.range (createBatches bs fetched).length).all ok = false)
    (hge : ¬ st.retryCount + 1 < mr) :
    flushAttempt mr bs st fetched ok
      = ⟨⟨.idle, 0, st.timerOn⟩, [], false, none⟩ := by
  obtain ⟨ts, rc, tm⟩ := st
  have hE : fetched.isEmpty = false := by
    cases fetched with
    | nil => exact absurd rfl hne
    | cons a l => rfl
  simp only at hge
  simp [flushAttempt, handleError, h, hE, hfail, hge]

/-- Over a nonempty index range, the all-false outcome fails the all test. -/
lemma range_all_false {n : Nat} (hn : 1 ≤ n) :
    (List.range n).all (fun _ => false) = false := by
  cases n with
  | zero => omega
  | succ k =>
      rw [Bool.eq_false_iff]
      simp [List.all_eq_true]
      exact ⟨0, by omega⟩

/-- A nonempty fetch yields at least one chunk. -/
lemma createBatches_length_pos {α : Type} (bs : Nat) (l : List α)
    (h : l ≠ []) : 1 ≤ (createBatches bs l).length := by
  cases l with
  | nil => exact absurd rfl h
  | cons a t => simp [createBatches, createBatchesAux]

/-- A chain of consecutive failing attempts of length k, started from IDLE
with retry counter rc and rc + k = maxRetries, ends abandoned: state IDLE,
retry counter zero, and no onSuccess call anywhere in the chain. -/
lemma runFlush_all_fail {α : Type} (bs : Nat) (fetched : List α)
    (ok : Nat → Bool) (hne : fetched ≠ [])
    (hfail : (List.range (createBatches bs fetched).length).all ok = false) :
    ∀ (k rc : Nat) (tm : Bool) (mr : Nat), 1 ≤ k → rc + k = mr →
      runFlush mr bs ⟨.idle, rc, tm⟩ fetched (List.replicate k ok)
        = (⟨.idle, 0, tm⟩, []) := by
  intro k
  induction k with
  | zero => intro rc tm mr h1 _; exact absurd h1 (by omega)
  | succ k ih =>
      intro rc tm mr _ hsum
      rcases Nat.eq_zero_or_pos k with hk0 | hkpos
      · subst hk0
        have hab := flushAttempt_fail_abandon mr bs ⟨.idle, rc, tm⟩ fetched ok
          (by simp) hne hfail (by simp; omega)
        simp [runFlush, List.replicate, hab]
      · have hretry := flushAttempt_fail_retry mr bs ⟨.idle, rc, tm⟩ fetched ok
          (by simp) hne hfail (by simp; omega)
        have hrest := ih (rc + 1) tm mr hkpos (by omega)
        simp [List.replicate_succ, runFlush, hretry, hrest]

end BatchTransport

/-- C3: in every flush attempt, onSuccess is called at most once; when it is
called, every chunk of the fetched events was sent successfully, the call
carries all fetched events, and the retry counter is reset to zero; when any
chunk fails, onSuccess is not called at all; and a transport that fails twice
and then succeeds within maxRetries = 3 calls onSuccess exactly once, with
all fetched events. -/
theorem flush_onSuccess_exactly_once {α : Type} (maxRetries batchSize : Nat)
    (st : BTState) (fetched : List α) (chunkOk : Nat → Bool) :
    (BatchTransport.flushAttempt maxRetries batchSize st fetched
        chunkOk).onSuccessCalls.length ≤ 1
  ∧ ((BatchTransport.flushAttempt maxRetries batchSize st fetched
        chunkOk).onSuccessCalls ≠ [] →
      (BatchTransport.flushAttempt maxRetries batchSize st fetched
          chunkOk).onSuccessCalls = [fetched]
      ∧ (∀ i, i < (BatchTransport.createBatches batchSize fetched).length →
          chunkOk i = true)
      ∧ (BatchTransport.flushAttempt maxRetries batchSize st fetched
          chunkOk).st.retryCount = 0)
  ∧ ((∃ i, i < (BatchTransport.createBatches batchSize fetched).length
        ∧ chunkOk i = false) →
      (BatchTransport.flushAttempt maxRetries batchSize st fetched
        chunkOk).onSuccessCalls = [])
  ∧ (st.tstate = .idle → st.retryCount = 0 → fetched ≠ [] →
      BatchTransport.runFlush 3 batchSize st fetched
          [fun _ => false, fun _ => false, fun _ => true]
        = (⟨.idle, 0, st.timerOn⟩, [fetched])) := by
  obtain ⟨ts, rc, tm⟩ := st
  have hscen : ts = .idle → rc = 0 → fetched ≠ [] →
      BatchTransport.runFlush 3 batchSize ⟨ts, rc, tm⟩ fetched
          [fun _ => false, fun _ => false, fun _ => true]
        = (⟨.idle, 0, tm⟩, [fetched]) := by
    intro hts hrc hne
    subst hts
    subst hrc
    have hlen := BatchTransport.createBatches_length_pos batchSize fetched hne
    have hf : (List.range (BatchTransport.createBatches batchSize
        fetched).length).all (fun _ => false) = false :=
      BatchTransport.range_all_false hlen
    have ht : (List.range (BatchTransport.createBatches batchSize
        fetched).length).all (fun _ => true) = true := by simp
    have h1 := BatchTransport.flushAttempt_fail_retry 3 batchSize
      ⟨.idle, 0, tm⟩ fetched (fun _ => false) (by simp) hne hf (by simp)
    have h2 := BatchTransport.flushAttempt_fail_retry 3 batchSize
      ⟨.idle, 1, tm⟩ fetched (fun _ => false) (by simp) hne hf (by simp)
    have h3 := BatchTransport.flushAttempt_success 3 batchSize
      ⟨.idle, 2, tm⟩ fetched (fun _ => true) (by simp) hne ht
    simp [BatchTransport.runFlush, h1, h2, h3]
  by_cases hs : ts = TransportState.sending
  · have heq := BatchTransport.flushAttempt_of_sending maxRetries batchSize
      ⟨ts, rc, tm⟩ fetched chunkOk hs
    refine ⟨?_, ?_, ?_, hscen⟩ <;> rw [heq]
    · simp
    · intro h; exact absurd rfl h
    · intro _; rfl
  · by_cases he : fetched = []
    · subst he
      have heq := BatchTransport.flushAttempt_of_empty (α := α) maxRetries
        batchSize ⟨ts, rc, tm⟩ chunkOk hs
      refine ⟨?_, ?_, ?_, hscen⟩ <;> rw [heq]
      · simp
      · intro h; exact absurd rfl h
      · intro _; rfl
    · by_cases hall : (List.range (BatchTransport.createBatches batchSize
          fetched).length).all chunkOk = true
      · have heq := BatchTransport.flushAttempt_success maxRetries batchSize
          ⟨ts, rc, tm⟩ fetched chunkOk hs he hall
        simp only [List.all_eq_true, List.mem_range] at hall
        refine ⟨?_, ?_, ?_, hscen⟩ <;> rw [heq]
        · simp
        · intro _
          exact ⟨rfl, fun i hi => hall i hi, rfl⟩
        · rintro ⟨i, hi, hfalse⟩
          have := hall i hi
          rw [hfalse] at this
          cases this
      · have hfail : (List.range (BatchTransport.createBatches batchSize
            fetched).length).all chunkOk = false := by
          rw [Bool.eq_false_iff]; exact hall
        by_cases hlt : rc + 1 < maxRetries
        · have heq := BatchTransport.flushAttempt_fail_retry maxRetries
            batchSize ⟨ts, rc, tm⟩ fetched chunkOk hs he hfail (by simp [hlt])
          refine ⟨?_, ?_, ?_, hscen⟩ <;> rw [heq]
          · simp
          · intro h; exact absurd rfl h
          · intro _; rfl
        · have heq := BatchTransport.flushAttempt_fail_abandon maxRetries
            batchSize ⟨ts, rc, tm⟩ fetched chunkOk hs he hfail (by simp [hlt])
          refine ⟨?_, ?_, ?_, hscen⟩ <;> rw [heq]
          · simp
          · intro h; exact absurd rfl h
          · intro _; rfl

/-- C3 witness: at maxRetries 3, batchSize 10, one fetched event and all
chunk sends succeeding, onSuccess is invoked exactly once with the fetched
events; and the fails-twice-then-succeeds chain makes exactly that one
invocation. -/
theorem flush_onSuccess_exactly_once_witness :
    (BatchTransport.flushAttempt (α := Nat) 3 10 ⟨.idle, 0, true⟩ [7]
        (fun _ => true)).onSuccessCalls = [[7]]
  ∧ BatchTransport.runFlush (α := Nat) 3 10 ⟨.idle, 0, true⟩ [7]
        [fun _ => false, fun _ => false, fun _ => true]
      = (⟨.idle, 0, true⟩, [[7]]) := by
  have h := flush_onSuccess_exactly_once (α := Nat) 3 10 ⟨.idle, 0, true⟩ [7]
    (fun _ => true)
  exact ⟨(h.2.1 (by decide)).1, h.2.2.2 rfl rfl (by decide)⟩

/-- C4: after a failed flush attempt below the limit, a retry is scheduled
with delay min(1000 * 2 ^ retryCount, 30000) using the incremented retry
counter and without any onSuccess call; at the limit the attempt is abandoned
with the counter reset to zero; and a chain of maxRetries consecutive
failures ends abandoned with no onSuccess call at all, so the Store is left
untouched by the whole chain. -/
theorem flush_retry_backoff_abandon {β : Type} (maxRetries batchSize : Nat)
    (st : BTState) (fetched : List (Rec β)) (chunkOk : Nat → Bool)
    (hns : st.tstate ≠ .sending) (hne : fetched ≠ [])
    (hfail : (List.range (BatchTransport.createBatches batchSize
        fetched).length).all chunkOk = false) :
    (st.retryCount + 1 < maxRetries →
        BatchTransport.flushAttempt maxRetries batchSize st fetched chunkOk
          = ⟨⟨.sending, st.retryCount + 1, st.timerOn⟩, [], true,
              some (min (1000 * 2 ^ (st.retryCount + 1)) 30000)⟩)
  ∧ (maxRetries ≤ st.retryCount + 1 →
        BatchTransport.flushAttempt maxRetries batchSize st fetched chunkOk
          = ⟨⟨.idle, 0, st.timerOn⟩, [], false, none⟩)
  ∧ (1 ≤ maxRetries → st.tstate = .idle → st.retryCount = 0 →
        BatchTransport.runFlush maxRetries batchSize st fetched
            (List.replicate maxRetries chunkOk)
          = (⟨.idle, 0, st.timerOn⟩, [])
        ∧ ∀ store : List (Rec β),
            applyDeliveries
              (BatchTransport.runFlush maxRetries batchSize st fetched
                (List.replicate maxRetries chunkOk)).2 store = store) := by
  obtain ⟨ts, rc, tm⟩ := st
  refine ⟨?_, ?_, ?_⟩
  · intro hlt
    exact BatchTransport.flushAttempt_fail_retry maxRetries batchSize
      ⟨ts, rc, tm⟩ fetched chunkOk hns hne hfail hlt
  · intro hge
    have hge2 : maxRetries ≤ rc + 1 := hge
    exact BatchTransport.flushAttempt_fail_abandon maxRetries batchSize
      ⟨ts, rc, tm⟩ fetched chunkOk hns hne hfail (Nat.not_lt.mpr hge2)
  · intro hmr hts hrc
    simp only at hts hrc
    subst hts
    subst hrc
    have hrun := BatchTransport.runFlush_all_fail batchSize fetched chunkOk
      hne hfail maxRetries 0 tm maxRetries hmr (by omega)
    refine ⟨hrun, ?_⟩
    intro store
    rw [hrun]
    simp [applyDeliveries]

/-- C4 witness: one failing attempt at retry counter 0 and maxRetries 3
schedules a 2000 ms retry (min(1000 * 2 ^ 1, 30000)), and the full chain of 3
failing attempts ends abandoned at counter zero with the store unchanged. -/
theorem flush_retry_backoff_abandon_witness :
    BatchTransport.flushAttempt 3 10 ⟨.idle, 0, true⟩
        [(⟨1, 5, 0⟩ : Rec Nat)] (fun _ => false)
      = ⟨⟨.sending, 1, true⟩, [], true, some 2000⟩
  ∧ BatchTransport.runFlush 3 10 ⟨.idle, 0, true⟩ [(⟨1, 5, 0⟩ : Rec Nat)]
        (List.replicate 3 (fun _ => false))
      = (⟨.idle, 0, true⟩, [])
  ∧ applyDeliveries
      (BatchTransport.runFlush 3 10 ⟨.idle, 0, true⟩ [(⟨1, 5, 0⟩ : Rec Nat)]
        (List.replicate 3 (fun _ => false))).2 [⟨1, 5, 0⟩] = [⟨1, 5, 0⟩] := by
  have h := flush_retry_backoff_abandon 3 10 ⟨.idle, 0, true⟩
    [(⟨1, 5, 0⟩ : Rec Nat)] (fun _ => false) (by decide) (by decide) (by decide)
  have h3 := h.2.2 (by decide) rfl rfl
  exact ⟨by simpa using h.1 (by decide), h3.1, h3.2 [⟨1, 5, 0⟩]⟩

/-- C10 (amended): STOPPED is reachable only via stop, which also clears the
interval timer, so after stop a timer tick does nothing; but STOPPED is not
terminal against an explicit flush call: the flush guard only checks SENDING,
so a flush after stop proceeds and leaves the state IDLE or SENDING, never
STOPPED; the happy path from IDLE with all chunks succeeding ends back at
IDLE. -/
theorem transport_stop_amended {α : Type} (maxRetries batchSize : Nat)
    (st : BTState) (fetched : List α) (chunkOk : Nat → Bool) :
    (BatchTransport.stop st).tstate = .stopped
  ∧ (BatchTransport.stop st).timerOn = false
  ∧ (st.tstate ≠ .stopped →
      (BatchTransport.flushAttempt maxRetries batchSize st fetched
        chunkOk).st.tstate ≠ .stopped)
  ∧ BatchTransport.timerFire maxRetries batchSize (BatchTransport.stop st)
        fetched chunkOk = ⟨BatchTransport.stop st, [], false, none⟩
  ∧ (st.tstate = .stopped →
      (BatchTransport.flushAttempt maxRetries batchSize st fetched
          chunkOk).st.tstate = .idle
      ∨ (BatchTransport.flushAttempt maxRetries batchSize st fetched
          chunkOk).st.tstate = .sending)
  ∧ (st.tstate = .idle →
      (List.range (BatchTransport.createBatches batchSize
          fetched).length).all chunkOk = true →
      (BatchTransport.flushAttempt maxRetries batchSize st fetched
        chunkOk).st.tstate = .idle) := by
  obtain ⟨ts, rc, tm⟩ := st
  refine ⟨rfl, rfl, ?_, ?_, ?_, ?_⟩
  · intro hns
    by_cases hs : ts = TransportState.sending
    · rw [BatchTransport.flushAttempt_of_sending maxRetries batchSize
        ⟨ts, rc, tm⟩ fetched chunkOk hs]
      exact hns
    · by_cases he : fetched = []
      · subst he
        rw [BatchTransport.flushAttempt_of_empty (α := α) maxRetries batchSize
          ⟨ts, rc, tm⟩ chunkOk hs]
        simp
      · by_cases hall : (List.range (BatchTransport.createBatches batchSize
            fetched).length).all chunkOk = true
        · rw [BatchTransport.flushAttempt_success maxRetries batchSize
            ⟨ts, rc, tm⟩ fetched chunkOk hs he hall]
          simp
        · have hfail : (List.range (BatchTransport.createBatches batchSize
              fetched).length).all chunkOk = false := by
            rw [Bool.eq_false_iff]; exact hall
          by_cases hlt : rc + 1 < maxRetries
          · rw [BatchTransport.flushAttempt_fail_retry maxRetries batchSize
              ⟨ts, rc, tm⟩ fetched chunkOk hs he hfail (by simp [hlt])]
            simp
          · rw [BatchTransport.flushAttempt_fail_abandon maxRetries batchSize
              ⟨ts, rc, tm⟩ fetched chunkOk hs he hfail (by simp [hlt])]
            simp
  · simp [BatchTransport.timerFire, BatchTransport.stop]
  · intro hts
    simp only at hts
    subst hts
    have hs : (TransportState.stopped : TransportState)
        ≠ TransportState.sending := by decide
    by_cases he : fetched = []
    · subst he
      rw [BatchTransport.flushAttempt_of_empty (α := α) maxRetries batchSize
        ⟨.stopped, rc, tm⟩ chunkOk hs]
      left; rfl
    · by_cases hall : (List.range (BatchTransport.createBatches batchSize
          fetched).length).all chunkOk = true
      · rw [BatchTransport.flushAttempt_success maxRetries batchSize
          ⟨.stopped, rc, tm⟩ fetched chunkOk hs he hall]
        left; rfl
      · have hfail : (List.range (BatchTransport.createBatches batchSize
            fetched).length).all chunkOk = false := by
          rw [Bool.eq_false_iff]; exact hall
        by_cases hlt : rc + 1 < maxRetries
        · rw [BatchTransport.flushAttempt_fail_retry maxRetries batchSize
            ⟨.stopped, rc, tm⟩ fetched chunkOk hs he hfail (by simp [hlt])]
          right; rfl
        · rw [BatchTransport.flushAttempt_fail_abandon maxRetries batchSize
            ⟨.stopped, rc, tm⟩ fetched chunkOk hs he hfail (by simp [hlt])]
          left; rfl
  · intro hts hall
    simp only at hts
    subst hts
    by_cases he : fetched = []
    · subst he
      rw [BatchTransport.flushAttempt_of_empty (α := α) maxRetries batchSize
        ⟨.idle, rc, tm⟩ chunkOk (by simp)]
    · rw [BatchTransport.flushAttempt_success maxRetries batchSize
        ⟨.idle, rc, tm⟩ fetched chunkOk (by simp) he hall]

/-- C10 witness: concrete instances — stop yields the STOPPED state with the
timer cleared, a timer tick after stop is a no-op, and the happy path from
IDLE ends at IDLE. -/
theorem transport_stop_amended_witness :
    (BatchTransport.stop ⟨.idle, 0, true⟩).tstate = TransportState.stopped
  ∧ BatchTransport.timerFire (α := Nat) 3 10
        (BatchTransport.stop ⟨.idle, 0, true⟩) [7] (fun _ => true)
      = ⟨BatchTransport.stop ⟨.idle, 0, true⟩, [], false, none⟩
  ∧ (BatchTransport.flushAttempt (α := Nat) 3 10 ⟨.idle, 0, true⟩ [7]
        (fun _ => true)).st.tstate = TransportState.idle := by
  have h := transport_stop_amended (α := Nat) 3 10 ⟨.idle, 0, true⟩ [7]
    (fun _ => true)
  exact ⟨h.1, h.2.2.2.1, h.2.2.2.2.2 rfl (by decide)⟩

/-- C10 counterexample: after stop has set the state to STOPPED, an explicit
flush call still proceeds (the guard only checks SENDING) and moves the state
back to IDLE, so STOPPED is not terminal as claimed. -/
theorem transport_stop_counterexample :
    (BatchTransport.flushAttempt (α := Nat) 3 10
        (BatchTransport.stop ⟨.idle, 0, true⟩) [] (fun _ => true)).st.tstate
      = TransportState.idle := by decide

namespace IndexedDBStorage

/-- Deleting a list of keys one by one filters out every record whose id is
among the keys. -/
lemma foldl_deleteById {α : Type} (ids : List Nat) :
    ∀ store : List (Rec α),
      ids.foldl (fun s k => deleteById s k) store
        = store.filter (fun r => decide (r.id ∉ ids)) := by
  induction ids with
  | nil => intro store; simp
  | cons k ks ih =>
      intro store
      rw [List.foldl_cons, ih (deleteById store k), deleteById,
        List.filter_filter]
      apply List.filter_congr
      intro r _
      by_cases h1 : r.id = k <;> by_cases h2 : r.id ∈ ks <;> simp [h1, h2]

/-- The cleanup loop in pair form: the counter just adds the number of
visited records. -/
lemma cleanup_loop {α : Type} :
    ∀ (todo : List (Rec α)) (store : List (Rec α)) (c : Nat),
      todo.foldl (fun acc r => (deleteById acc.1 r.id, acc.2 + 1)) (store, c)
        = (todo.foldl (fun s r => deleteById s r.id) store, c + todo.length) := by
  intro todo
  induction todo with
  | nil => intro store c; simp
  | cons x xs ih =>
      intro store c
      rw [List.foldl_cons, List.foldl_cons]
      show List.foldl (fun acc r => (deleteById acc.1 r.id, acc.2 + 1))
          (deleteById store x.id, c + 1) xs
        = (List.foldl (fun s r => deleteById s r.id)
            (deleteById store x.id) xs, c + (x :: xs).length)
      rw [ih (deleteById store x.id) (c + 1)]
      simp only [Prod.mk.injEq, List.length_cons]
      exact ⟨trivial, by omega⟩

/-- cleanup deletes by key exactly the records the expireAt-range cursor
visited, and counts them. -/
lemma cleanup_eq {α : Type} (now : Nat) (store : List (Rec α)) :
    cleanup now store
      = (store.filter
          (fun r => decide (r.id ∉ (expiredScan now store).map (·.id))),
         (expiredScan now store).length) := by
  rw [cleanup, cleanup_loop]
  rw [show (expiredScan now store).foldl (fun s r => deleteById s r.id) store
      = ((expiredScan now store).map (·.id)).foldl
          (fun s k => deleteById s k) store by rw [List.foldl_map]]
  rw [foldl_deleteById]
  simp

end IndexedDBStorage

/-- C6: on a store whose ids are unique (the store assigns them by
auto-increment), cleanup removes exactly the records with expireAt at most
now — every such record is deleted, every other record survives — and it
resolves with the number of records deleted. -/
theorem cleanup_removes_exactly_expired {α : Type} (now : Nat)
    (store : List (Rec α)) (hnodup : (store.map (·.id)).Nodup) :
    (IndexedDBStorage.cleanup now store).1
        = store.filter (fun r => decide (now < r.expireAt))
  ∧ (IndexedDBStorage.cleanup now store).2
        = (store.filter (fun r => decide (r.expireAt ≤ now))).length
  ∧ (∀ r ∈ store, r.expireAt ≤ now →
      r ∉ (IndexedDBStorage.cleanup now store).1)
  ∧ (∀ r ∈ store, now < r.expireAt →
      r ∈ (IndexedDBStorage.cleanup now store).1)
  ∧ (∀ r ∈ (IndexedDBStorage.cleanup now store).1, r ∈ store) := by
  have hmain : (IndexedDBStorage.cleanup now store).1
      = store.filter (fun r => decide (now < r.expireAt)) := by
    rw [IndexedDBStorage.cleanup_eq]
    apply List.filter_congr
    intro r hr
    by_cases hexp : r.expireAt ≤ now
    · have hmem : r.id ∈ (IndexedDBStorage.expiredScan now store).map (·.id) := by
        refine List.mem_map.mpr ⟨r, ?_, rfl⟩
        exact List.mem_filter.mpr ⟨hr, by simpa using hexp⟩
      simp [hmem]
      omega
    · have hnot : r.id ∉ (IndexedDBStorage.expiredScan now store).map (·.id) := by
        intro hmem
        obtain ⟨r2, hr2, hid⟩ := List.mem_map.mp hmem
        have hr2s : r2 ∈ store := (List.mem_filter.mp hr2).1
        have hr2e : r2.expireAt ≤ now := by
          simpa using (List.mem_filter.mp hr2).2
        have : r2 = r := List.inj_on_of_nodup_map hnodup hr2s hr hid
        exact hexp (this ▸ hr2e)
      have hlt : now < r.expireAt := Nat.lt_of_not_le hexp
      simp [hnot, hlt]
  refine ⟨hmain, ?_, ?_, ?_, ?_⟩
  · rw [IndexedDBStorage.cleanup_eq]
    rfl
  · intro r hr hexp hmem
    rw [hmain] at hmem
    have := (List.mem_filter.mp hmem).2
    simp at this
    omega
  · intro r hr hexp
    rw [hmain]
    exact List.mem_filter.mpr ⟨hr, by simpa using hexp⟩
  · intro r hr
    rw [hmain] at hr
    exact (List.mem_filter.mp hr).1

/-- C6 witness: a store of three records with one call time — the two expired
records (expireAt 5 and 7, at now = 10) are removed, the live one survives,
and the resolved count is 2. -/
theorem cleanup_removes_exactly_expired_witness :
    (IndexedDBStorage.cleanup 10
        [(⟨1, 5, 0⟩ : Rec Nat), ⟨2, 100, 0⟩, ⟨3, 7, 0⟩]).1 = [⟨2, 100, 0⟩]
  ∧ (IndexedDBStorage.cleanup 10
        [(⟨1, 5, 0⟩ : Rec Nat), ⟨2, 100, 0⟩, ⟨3, 7, 0⟩]).2 = 2 := by
  have h := cleanup_removes_exactly_expired 10
    [(⟨1, 5, 0⟩ : Rec Nat), ⟨2, 100, 0⟩, ⟨3, 7, 0⟩] (by decide)
  refine ⟨?_, ?_⟩
  · rw [h.1]
    decide
  · rw [h.2.1]
    decide

namespace IndexedDBStorage

/-- The deleteEvents fold removes every record whose id occurs among the ids
whose delete request succeeded, independently of the failing ids. -/
lemma foldl_deleteEvents {α : Type} (err : Nat → Bool) (ids : List Nat) :
    ∀ store : List (Rec α),
      ids.foldl (fun s k => if err k then s else deleteById s k) store
        = store.filter
            (fun r => decide (∀ k ∈ ids, err k = false → r.id ≠ k)) := by
  induction ids with
  | nil => intro store; simp
  | cons k ks ih =>
      intro store
      rw [List.foldl_cons]
      by_cases he : err k = true
      · rw [if_pos he]
        rw [ih store]
        apply List.filter_congr
        intro r _
        rw [decide_eq_decide]
        simp [List.forall_mem_cons, he]
      · have he2 : err k = false := by
          rw [Bool.eq_false_iff]; exact he
        rw [if_neg he]
        rw [ih (deleteById store k), deleteById, List.filter_filter]
        apply List.filter_congr
        intro r _
        by_cases h1 : r.id = k <;>
          simp [h1, he2, List.forall_mem_cons]

end IndexedDBStorage

/-- C7: every requested id whose delete request succeeds is gone from the
store afterwards, even when other requested ids fail (all requests are issued
up front); the promise resolves exactly when every request succeeded;
delete of an empty list is a successful no-op; and deleting ids that are
absent from the store (including duplicates) leaves the store unchanged. -/
theorem deleteEvents_contract {α : Type} (err : Nat → Bool) (ids : List Nat)
    (store : List (Rec α)) :
    (∀ k ∈ ids, err k = false →
        ∀ r ∈ (IndexedDBStorage.deleteEvents err ids store).1, r.id ≠ k)
  ∧ ((IndexedDBStorage.deleteEvents err ids store).2 = true
        ↔ ∀ k ∈ ids, err k = false)
  ∧ IndexedDBStorage.deleteEvents err [] store = (store, true)
  ∧ ((∀ k ∈ ids, ∀ r ∈ store, r.id ≠ k) →
      (IndexedDBStorage.deleteEvents err ids store).1 = store) := by
  refine ⟨?_, ?_, by simp [IndexedDBStorage.deleteEvents], ?_⟩
  · intro k hk hke r hr
    cases ids with
    | nil => cases hk
    | cons i is =>
        rw [show IndexedDBStorage.deleteEvents err (i :: is) store
            = ((i :: is).foldl
                (fun s k => if err k then s else IndexedDBStorage.deleteById s k)
                store,
               (i :: is).all (fun k => !err k))
            from by simp [IndexedDBStorage.deleteEvents]] at hr
        rw [IndexedDBStorage.foldl_deleteEvents] at hr
        have := (List.mem_filter.mp hr).2
        rw [decide_eq_true_eq] at this
        exact this k hk hke
  · cases ids with
    | nil => simp [IndexedDBStorage.deleteEvents]
    | cons i is =>
        rw [show (IndexedDBStorage.deleteEvents err (i :: is) store).2
            = (i :: is).all (fun k => !err k)
            from by simp [IndexedDBStorage.deleteEvents]]
        simp [List.all_eq_true]
  · intro habs
    cases ids with
    | nil => simp [IndexedDBStorage.deleteEvents]
    | cons i is =>
        rw [show (IndexedDBStorage.deleteEvents err (i :: is) store).1
            = (i :: is).foldl
                (fun s k => if err k then s else IndexedDBStorage.deleteById s k)
                store
            from by simp [IndexedDBStorage.deleteEvents]]
        rw [IndexedDBStorage.foldl_deleteEvents]
        apply List.filter_eq_self.mpr
        intro r hr
        rw [decide_eq_true_eq]
        intro k hk _
        exact habs k hk r hr

/-- C7 witness: a delete of three ids with the request for id 2 failing still
removes id 1 from the store; an empty delete resolves as a no-op; and a
delete of duplicate absent ids resolves without error and leaves the store
unchanged. -/
theorem deleteEvents_contract_witness :
    (∀ r ∈ (IndexedDBStorage.deleteEvents (fun k => decide (k = 2)) [1, 2, 3]
        [(⟨1, 0, 0⟩ : Rec Nat), ⟨3, 0, 0⟩]).1, r.id ≠ 1)
  ∧ IndexedDBStorage.deleteEvents (fun _ => false) ([] : List Nat)
        [(⟨1, 0, 0⟩ : Rec Nat), ⟨3, 0, 0⟩]
      = ([⟨1, 0, 0⟩, ⟨3, 0, 0⟩], true)
  ∧ (IndexedDBStorage.deleteEvents (fun _ => false) [5, 5]
        [(⟨1, 0, 0⟩ : Rec Nat), ⟨3, 0, 0⟩]).1 = [⟨1, 0, 0⟩, ⟨3, 0, 0⟩]
  ∧ (IndexedDBStorage.deleteEvents (fun _ => false) [5, 5]
        [(⟨1, 0, 0⟩ : Rec Nat), ⟨3, 0, 0⟩]).2 = true := by
  have h1 := deleteEvents_contract (α := Nat) (fun k => decide (k = 2))
    [1, 2, 3] [⟨1, 0, 0⟩, ⟨3, 0, 0⟩]
  have h2 := deleteEvents_contract (α := Nat) (fun _ => false) []
    [⟨1, 0, 0⟩, ⟨3, 0, 0⟩]
  have h3 := deleteEvents_contract (α := Nat) (fun _ => false) [5, 5]
    [⟨1, 0, 0⟩, ⟨3, 0, 0⟩]
  exact ⟨h1.1 1 (by decide) (by decide), h2.2.2.1,
    h3.2.2.2 (by decide), h3.2.1.mpr (by decide)⟩

/-- C8 (amended): for every event whose type is neither SNAPSHOT nor REPLAY,
the pipeline stores the data payload unchanged — handleEvent passes the event
through and addEvent only attaches expireAt while the store assigns the id;
SNAPSHOT and REPLAY events, by contrast, pass through the processors, which
may rewrite data.  The statement holds for every DOM compressor and every
replay processor. -/
theorem pipeline_data_unchanged_amended (compressDOM : String → String)
    (replayProcess : MEvent → MEvent) (now nextId : Nat) (e : MEvent)
    (hs : e.etype ≠ "SNAPSHOT") (hr : e.etype ≠ "REPLAY") :
    (MonitorWorker.handleEventStored compressDOM replayProcess now nextId
        e).data = e.data
  ∧ (MonitorWorker.handleEventStored compressDOM replayProcess now nextId
        e).etype = e.etype
  ∧ (MonitorWorker.handleEventStored compressDOM replayProcess now nextId
        e).timestamp = e.timestamp
  ∧ (MonitorWorker.handleEventStored compressDOM replayProcess now nextId
        e).expireAt = now + DEFAULT_EVENT_TTL
  ∧ (MonitorWorker.handleEventStored compressDOM replayProcess now nextId
        e).id = nextId := by
  simp [MonitorWorker.handleEventStored, MonitorWorker.processEvent,
    addEvent, hs, hr]

/-- C8 witness: an ERROR event with an uninterpreted payload is persisted
with its data untouched, the default TTL attached, and the next
auto-increment id. -/
theorem pipeline_data_unchanged_witness :
    (MonitorWorker.handleEventStored (fun s => s) (fun e => e) 0 1
        ⟨"ERROR", 3, .plain "payload"⟩).data = EventData.plain "payload"
  ∧ (MonitorWorker.handleEventStored (fun s => s) (fun e => e) 0 1
        ⟨"ERROR", 3, .plain "payload"⟩).expireAt = DEFAULT_EVENT_TTL := by
  have h := pipeline_data_unchanged_amended (fun s => s) (fun e => e) 0 1
    ⟨"ERROR", 3, .plain "payload"⟩ (by decide) (by decide)
  exact ⟨h.1, by rw [h.2.2.2.1]; simp⟩

/-- C8 counterexample: a SNAPSHOT event with a snapshot payload (empty dom,
so the DOM compressor is never consulted and its identity instantiation is
immaterial) is stored with altered data: the processor writes a snapshotSize
field into it. -/
theorem pipeline_snapshot_data_changed_counterexample :
    (MonitorWorker.handleEventStored (fun s => s) (fun e => e) 0 1
        ⟨"SNAPSHOT", 5,
          EventData.snap (some ⟨"u", "t", ⟨1, 1⟩, "", false⟩)
            none none false⟩).data
      ≠ EventData.snap (some ⟨"u", "t", ⟨1, 1⟩, "", false⟩) none none false := by
  decide

/-- C9 (amended): handleEvent never lets an exception escape the worker — an
unconfigured worker and a throwing body both end in a posted response, the
latter an error response carrying the message; init, however, has no
try/catch: a storage failure escapes the handler as an unhandled rejection
instead of producing an error response, while a successful init posts the
init response. -/
theorem worker_error_responses_amended (configured : Bool)
    (tryBlock : Except String Nat) (storageInit : Except String Unit) :
    (∃ rs, MonitorWorker.handleEvent configured tryBlock = .ok rs)
  ∧ (∀ msg, tryBlock = .error msg → configured = true →
      MonitorWorker.handleEvent configured tryBlock
        = .ok [⟨"error", none, some msg, none⟩])
  ∧ (∀ msg, storageInit = .error msg →
      MonitorWorker.init storageInit = .error msg)
  ∧ (storageInit = .ok () →
      MonitorWorker.init storageInit
        = .ok [⟨"init", some true, none, none⟩]) := by
  refine ⟨?_, ?_, ?_, ?_⟩
  · cases configured with
    | false => exact ⟨_, rfl⟩
    | true => cases tryBlock with
      | ok v => exact ⟨_, rfl⟩
      | error msg => exact ⟨_, rfl⟩
  · intro msg hmsg hcfg
    subst hmsg
    subst hcfg
    rfl
  · intro msg hmsg
    subst hmsg
    rfl
  · intro h
    subst h
    rfl

/-- C9 witness: a throwing handleEvent body is reported as an error response,
and a failing storage open makes init escape with the error. -/
theorem worker_error_responses_witness :
    MonitorWorker.handleEvent true (Except.error "addEvent failed")
      = Except.ok [⟨"error", none, some "addEvent failed", none⟩]
  ∧ MonitorWorker.init (Except.error "open failed")
      = Except.error "open failed" := by
  have h := worker_error_responses_amended true
    (Except.error "addEvent failed") (Except.error "open failed")
  exact ⟨h.2.1 "addEvent failed" rfl rfl, h.2.2.1 "open failed" rfl⟩

/-- C9 counterexample: an error during init is not caught inside the worker:
the handler does not return normally with an error response — the rejection
escapes. -/
theorem worker_init_uncaught_counterexample :
    ¬ ∃ rs, MonitorWorker.init (Except.error "IndexedDB open failed")
        = Except.ok rs := by
  rintro ⟨rs, h⟩
  simp [MonitorWorker.init] at h
